import Mathlib

/-!
# A verification development for the `gr` command-line tool

This file embeds, in Lean 4, the parts of the `gr` source tree that the
verified properties talk about: the remote-URL parser (`src/git/url.rs`),
the provider adapters' token validation, canonical-state mapping, pagination
and pull-request creation logic (`src/vcs/{github,gitlab,bitbucket,gitea}.rs`),
and the command orchestrators for merge/close/create (`src/cmd/pr/*.rs`).

Rust strings are modelled as `List Char` together with their UTF-8 byte
widths, so that Rust's byte-indexed slicing (which panics on an
out-of-bounds or non-boundary index) is represented faithfully: a function
that can panic returns `Option`, with `none` standing for a panic.
Fallible Rust functions returning `Result` are modelled with `Except`.
-/

deriving instance DecidableEq for Except

namespace Gr

/-- The number of bytes of the UTF-8 encoding of a character
(this is what Rust's byte-indexed `str` operations count). -/
def utf8Width (c : Char) : Nat :=
  if c.val < 0x80 then 1
  else if c.val < 0x800 then 2
  else if c.val < 0x10000 then 3
  else 4

/-- The byte length of a string, as Rust's `str::len` reports it. -/
def byteLen (s : List Char) : Nat := (s.map utf8Width).sum

/-- Rust's byte slice `s[n..]`: `some` suffix when `n` is a character
boundary at or before the end of `s`, `none` (a panic) otherwise. -/
def sliceFrom : List Char → Nat → Option (List Char)
  | s, 0 => some s
  | [], _ + 1 => none
  | c :: s, n + 1 =>
    if utf8Width c ≤ n + 1 then sliceFrom s (n + 1 - utf8Width c) else none

/-- Rust's `str::split_once(char)`: split at the first occurrence of `d`,
returning the parts before and after it. -/
def splitOnceChar : List Char → Char → Option (List Char × List Char)
  | [], _ => none
  | c :: s, d =>
    if c = d then some ([], s)
    else (splitOnceChar s d).map (fun p => (c :: p.1, p.2))

/-- Rust's `str::split_once(&str)` for a non-empty pattern: split at the
first occurrence of `pat`. -/
def splitOnceStr : List Char → List Char → Option (List Char × List Char)
  | [], _ => none
  | c :: s, pat =>
    if pat.isPrefixOf (c :: s) then some ([], (c :: s).drop pat.length)
    else (splitOnceStr s pat).map (fun p => (c :: p.1, p.2))

/-- The error cases of `parse_url` (src/git/url.rs): no `/`-separated path
after the scheme, FTP scheme, or a bare local path with no `:`. -/
inductive UrlError
  | noPath
  | ftpUnsupported
  | localDir
  deriving DecidableEq, Repr

/-- Embedding of `parse_url` (src/git/url.rs, lines 8-32).  The outer
`Option` models panics: the source slices `rest[2..]` by bytes, which
panics when the remainder after the first `:` is shorter than two bytes or
when byte 2 falls inside a multi-byte character. -/
def parse_url (url : List Char) : Option (Except UrlError (List Char × List Char)) :=
  match splitOnceChar url ':' with
  | none => some (.error .localDir)
  | some (first, rest) =>
    let hostPath : Option (Except UrlError (List Char × List Char)) :=
      if first = "http".toList ∨ first = "https".toList ∨
          first = "ssh".toList ∨ first = "git".toList then
        match sliceFrom rest 2 with
        | none => none
        | some stripped =>
          match splitOnceChar stripped '/' with
          | none => some (.error .noPath)
          | some (host, path) => some (.ok (host, path))
      else if first = "ftp".toList ∨ first = "ftps".toList then
        some (.error .ftpUnsupported)
      else
        some (.ok (first, rest))
    match hostPath with
    | none => none
    | some (.error e) => some (.error e)
    | some (.ok (host, path)) =>
      let host := (splitOnceChar host '@').elim host (fun p => p.2)
      let path := (splitOnceStr path ".git".toList).elim path (fun p => p.1)
      some (.ok (host, path))

end Gr

namespace Gr

/-- C7: for the three documented URL forms the parser returns the pair
`(host, "a/b")`: the path carries no `.git` suffix and the host carries no
embedded `user@` credentials. -/
theorem parse_url_documented_forms :
    parse_url "https://host/a/b.git".toList =
      some (.ok ("host".toList, "a/b".toList)) ∧
    parse_url "ssh://user@host/a/b".toList =
      some (.ok ("host".toList, "a/b".toList)) ∧
    parse_url "git@host:a/b.git".toList =
      some (.ok ("host".toList, "a/b".toList)) := by
  refine ⟨?_, ?_, ?_⟩ <;> decide

/-- C10: `parse_url` is not total: on the input `"http:"` the remainder
after the first `:` is empty, and the byte slice `rest[2..]` panics
(modelled as `none`).  The same happens on `"ssh:€"`, where byte index 2
falls inside the three-byte character `€`. -/
theorem parse_url_panics_on_short_rest :
    parse_url "http:".toList = none ∧ parse_url "ssh:€".toList = none := by
  refine ⟨?_, ?_⟩ <;> decide

/-! ## Token validation (src/vcs/github.rs, src/vcs/gitlab.rs)

`GitHub::validate_token` and `GitLab::validate_token` are format-only
checks on the pasted token.  Rust's `str::len` counts bytes, so the length
checks are byte-length checks. -/

/-- The two failure cases of the token format checks. -/
inductive TokenError
  | wrongStart
  | wrongLength
  deriving DecidableEq, Repr

namespace GitHub

/-- Embedding of `GitHub::validate_token` (src/vcs/github.rs, lines
393-401): the token must start with `ghp_` and its total byte length must
be exactly 40. -/
def validate_token (token : List Char) : Except TokenError Unit :=
  if !("ghp_".toList.isPrefixOf token) then .error .wrongStart
  else if byteLen token ≠ 40 then .error .wrongLength
  else .ok ()

end GitHub

namespace GitLab

/-- Embedding of `GitLab::validate_token` (src/vcs/gitlab.rs, lines
460-468): the token must start with `glpat-` and its total byte length
must be exactly 26. -/
def validate_token (token : List Char) : Except TokenError Unit :=
  if !("glpat-".toList.isPrefixOf token) then .error .wrongStart
  else if byteLen token ≠ 26 then .error .wrongLength
  else .ok ()

end GitLab

/-- C8 counterexample: a GitHub token consisting of the prefix `ghp_`
followed by 40 further characters (44 in total) is rejected by the code,
and so is a GitLab token of `glpat-` followed by 26 further characters:
the length checks are on the whole token, prefix included. -/
theorem validate_token_rejects_prefix_plus_n :
    GitHub.validate_token ("ghp_".toList ++ List.replicate 40 'a') =
      .error .wrongLength ∧
    GitLab.validate_token ("glpat-".toList ++ List.replicate 26 'a') =
      .error .wrongLength := by
  refine ⟨?_, ?_⟩ <;> decide

/-- C8 (amended): `validate_token` accepts exactly the tokens that start
with `ghp_` (GitHub) resp. `glpat-` (GitLab) and whose total byte length
is 40 resp. 26 — i.e. 36 resp. 20 characters after the prefix; every token
of any other shape is rejected with an error. -/
theorem validate_token_accepted_shapes (t : List Char) :
    (GitHub.validate_token t = .ok () ↔
      ("ghp_".toList.isPrefixOf t = true ∧ byteLen t = 40)) ∧
    (GitLab.validate_token t = .ok () ↔
      ("glpat-".toList.isPrefixOf t = true ∧ byteLen t = 26)) := by
  constructor
  · rw [GitHub.validate_token]
    rcases h : "ghp_".toList.isPrefixOf t <;> simp [h]
  · rw [GitLab.validate_token]
    rcases h : "glpat-".toList.isPrefixOf t <;> simp [h]

/-! ## Canonical pull-request state mapping (src/vcs/github.rs, src/vcs/gitea.rs)

The canonical model (`PullRequestState` in src/vcs/common.rs) has four
states.  GitHub wire pull requests carry an open/closed state, a nullable
merged timestamp and a `locked` flag (`From<GitHubPullRequest> for
PullRequest`, src/vcs/github.rs lines 191-196).  Gitea wire pull requests
(`GiteaPullRequest`, src/vcs/gitea.rs) carry only an open/closed state and
a nullable merged timestamp — there is no `locked` field.  Timestamps are
abstracted as `Nat`; only their presence matters to the mapping. -/

/-- The canonical pull-request states (src/vcs/common.rs). -/
inductive PullRequestState
  | Open
  | Closed
  | Merged
  | Locked
  deriving DecidableEq, Repr

/-- GitHub's wire state enumeration (src/vcs/github.rs). -/
inductive GitHubPullRequestState
  | Open
  | Closed
  deriving DecidableEq, Repr

/-- Whether a GitHub wire state is the open state. -/
def GitHubPullRequestState.isOpen : GitHubPullRequestState → Bool
  | .Open => true
  | .Closed => false

/-- Gitea's wire state enumeration (src/vcs/gitea.rs). -/
inductive GiteaPullRequestState
  | Open
  | Closed
  deriving DecidableEq, Repr

/-- Whether a Gitea wire state is the open state. -/
def GiteaPullRequestState.isOpen : GiteaPullRequestState → Bool
  | .Open => true
  | .Closed => false

/-- The state-mapping `match` of `From<GitHubPullRequest> for PullRequest`
(src/vcs/github.rs, lines 191-196). -/
def githubStateResolution (state : GitHubPullRequestState)
    (merged_at : Option Nat) (locked : Bool) : PullRequestState :=
  match state, merged_at, locked with
  | _, _, true => .Locked
  | .Open, _, _ => .Open
  | .Closed, some _, _ => .Merged
  | .Closed, none, _ => .Closed

/-- The state-mapping `match` of `From<GiteaPullRequest> for PullRequest`
(src/vcs/gitea.rs, lines 143-147).  There is no `locked` input. -/
def giteaStateResolution (state : GiteaPullRequestState)
    (merged_at : Option Nat) : PullRequestState :=
  match state, merged_at with
  | .Open, _ => .Open
  | .Closed, some _ => .Merged
  | .Closed, none => .Closed

/-- The state resolution exactly as the specification words it: `Locked`
if the locked flag is set, else `Open` if the state is open, else `Merged`
if the merged timestamp is set, else `Closed`. -/
def claimedStateResolution (locked isOpen mergedSet : Bool) : PullRequestState :=
  if locked then .Locked
  else if isOpen then .Open
  else if mergedSet then .Merged
  else .Closed

/-- C3 counterexample: the Gitea wire pull request has no locked flag, and
its state mapping can never produce the canonical `Locked` state — so the
claim's `Locked`-if-locked clause (and totality over flag combinations
that include the locked flag) fails for Gitea. -/
theorem gitea_state_never_locked :
    ¬ ∃ (s : GiteaPullRequestState) (m : Option Nat),
        giteaStateResolution s m = PullRequestState.Locked := by
  rintro ⟨s, m, h⟩
  cases s <;> cases m <;> simp [giteaStateResolution] at h

/-- C3 (amended): GitHub's mapping is exactly the spec's resolution order
(`Locked` if locked, else `Open` if open, else `Merged` if the merged
timestamp is set, else `Closed`) and is total; Gitea's wire format has no
locked flag, and its mapping is the same resolution with the locked flag
absent (never `Locked`), total over its actual inputs. -/
theorem state_resolution_github_gitea :
    (∀ (s : GitHubPullRequestState) (m : Option Nat) (l : Bool),
      githubStateResolution s m l = claimedStateResolution l s.isOpen m.isSome) ∧
    (∀ (s : GiteaPullRequestState) (m : Option Nat),
      giteaStateResolution s m = claimedStateResolution false s.isOpen m.isSome) := by
  constructor
  · intro s m l
    cases s <;> cases m <;> cases l <;> rfl
  · intro s m
    cases s <;> cases m <;> rfl

/-! ## Paginated fetching (src/vcs/bitbucket.rs, src/vcs/gitea.rs)

`Bitbucket::call_paginated` (lines 451-473) loops with an incrementing
`page` parameter, appends each response's `values`, and stops when the
response's `next` link is absent.  `Gitea::call_paginated` (lines 322-344)
loops the same way and stops on the first empty page (whose values are not
appended — they are empty anyway).  Each adapter's loop is modelled as a
recursion over the list of successive page responses; running off the end
of the provided responses (the loop would keep fetching) is `none`, so a
`some` result certifies termination within the provided pages.  The
returned `Nat` counts the page fetches performed. -/

/-- A Bitbucket paginated response (src/vcs/bitbucket.rs, lines 365-372);
the `page`/`pagelen`/`size` metadata fields are not consulted by
`call_paginated` and are omitted. -/
structure BitbucketPaginated (α : Type) where
  next : Option (List Char)
  values : List α
  deriving DecidableEq, Repr

namespace Bitbucket

/-- Embedding of the loop of `Bitbucket::call_paginated` (src/vcs/
bitbucket.rs, lines 451-473) over the successive page responses. -/
def call_paginated {α : Type} : List (BitbucketPaginated α) → Option (List α × Nat)
  | [] => none
  | page :: rest =>
    if page.next.isNone then some (page.values, 1)
    else
      match call_paginated rest with
      | none => none
      | some (vs, n) => some (page.values ++ vs, n + 1)

end Bitbucket

namespace Gitea

/-- Embedding of the loop of `Gitea::call_paginated` (src/vcs/gitea.rs,
lines 322-344) over the successive page responses. -/
def call_paginated {α : Type} : List (List α) → Option (List α × Nat)
  | [] => none
  | page :: rest =>
    if page.isEmpty then some ([], 1)
    else
      match call_paginated rest with
      | none => none
      | some (vs, n) => some (page ++ vs, n + 1)

end Gitea

/-- For Bitbucket, appending a final page with no `next` link makes the
loop terminate there, collecting that page's values last. -/
theorem bitbucket_call_paginated_append {α : Type}
    (ps : List (BitbucketPaginated α)) (ls : List α)
    (h : ∀ p ∈ ps, p.next.isSome = true) :
    Bitbucket.call_paginated (ps ++ [⟨none, ls⟩]) =
      some ((ps.map (fun p => p.values)).flatten ++ ls, ps.length + 1) := by
  induction ps with
  | nil => rfl
  | cons p ps ih =>
    have hp : p.next.isSome = true := h p (List.mem_cons_self p ps)
    have hrest : ∀ q ∈ ps, q.next.isSome = true :=
      fun q hq => h q (List.mem_cons_of_mem p hq)
    have hnone : p.next.isNone = false := by
      rcases hv : p.next with _ | v
      · rw [hv] at hp
        simp at hp
      · rfl
    simp [Bitbucket.call_paginated, hnone, ih hrest, List.append_assoc]

/-- For Gitea, appending a final empty page makes the loop terminate
there, as long as no earlier page is empty. -/
theorem gitea_call_paginated_append {α : Type}
    (qs : List (List α)) (h : ∀ q ∈ qs, q ≠ []) :
    Gitea.call_paginated (qs ++ [[]]) = some (qs.flatten, qs.length + 1) := by
  induction qs with
  | nil => rfl
  | cons q qs ih =>
    have hq : q ≠ [] := h q (List.mem_cons_self q qs)
    have hrest : ∀ r ∈ qs, r ≠ [] := fun r hr => h r (List.mem_cons_of_mem q hr)
    have hempty : q.isEmpty = false := by
      rcases q with _ | ⟨c, q⟩
      · exact absurd rfl hq
      · rfl
    simp [Gitea.call_paginated, hempty, ih hrest]

/-- C2: when pages `p1..pn` are non-empty (and, for Bitbucket, each carries
a `next` link) and page `n+1` is the terminating page — empty with no
`next` link for Bitbucket, empty for Gitea — `call_paginated` returns the
concatenation of `p1..pn` in order, performs exactly `n+1` page fetches,
and terminates on that page (a `some` result: the loop does not run
beyond the provided pages). -/
theorem call_paginated_concatenates {α : Type}
    (ps : List (BitbucketPaginated α)) (qs : List (List α))
    (hbb : ∀ p ∈ ps, p.values ≠ [] ∧ p.next.isSome = true)
    (hg : ∀ q ∈ qs, q ≠ []) :
    Bitbucket.call_paginated (ps ++ [⟨none, []⟩]) =
      some ((ps.map (fun p => p.values)).flatten, ps.length + 1) ∧
    Gitea.call_paginated (qs ++ [[]]) = some (qs.flatten, qs.length + 1) := by
  refine ⟨?_, gitea_call_paginated_append qs hg⟩
  have := bitbucket_call_paginated_append ps [] (fun p hp => (hbb p hp).2)
  simpa using this

/-- C2 witness: two non-empty pages followed by the terminating page give
the concatenation of the two pages in three fetches, on both adapters. -/
theorem call_paginated_concatenates_witness :
    Bitbucket.call_paginated
        ([⟨some ['x'], [1, 2]⟩, ⟨some ['x'], [3]⟩] ++ [⟨none, ([] : List Nat)⟩]) =
      some ([1, 2, 3], 3) ∧
    Gitea.call_paginated ([[1], [2, 3]] ++ [([] : List Nat)]) =
      some ([1, 2, 3], 3) :=
  call_paginated_concatenates
    [⟨some ['x'], [1, 2]⟩, ⟨some ['x'], [3]⟩] [[1], [2, 3]]
    (by decide) (by decide)

/-! ## Pull-request creation (src/vcs/\*.rs)

The canonical command object `CreatePullRequest` (src/vcs/common.rs)
carries the reviewer usernames; each adapter's `create_pr` resolves them
(or passes them through), resolves the target branch, and builds its wire
request.  The remote is abstracted: the workspace-member list that
Bitbucket's `get_workspace_users` pages through, the GitLab user-search
results, and the repository metadata that `get_repository` /
`get_repository_data` would fetch are inputs to the model; each model
returns the wire request that would be POSTed, so an `Except.error` result
means the adapter fails before any pull request is created. -/

/-- The canonical user (src/vcs/common.rs); GitLab's numeric id is
converted with `to_string` on the way in. -/
structure User where
  id : List Char
  username : List Char
  deriving DecidableEq, Repr

/-- The canonical create-PR command object (src/vcs/common.rs). -/
structure CreatePullRequest where
  title : List Char
  description : List Char
  source : List Char
  target : Option (List Char)
  close_source_branch : Bool
  reviewers : List (List Char)
  deriving DecidableEq, Repr

/-- Per-invocation provider settings, as the adapters consult them
(src/vcs/common.rs plus the `fork` flag the adapters read). -/
structure VersionControlSettings where
  auth : List Char
  vcs_type : Option (List Char)
  default_branch : Option (List Char)
  fork : Bool
  deriving DecidableEq, Repr

/-- The repository metadata fields that `create_pr` consults after a
`get_repository`/`get_repository_data` fetch (GitHub and Bitbucket
identify the fork parent by full name). -/
structure RepositoryInfo where
  full_name : List Char
  default_branch : List Char
  forked_from : Option (List Char)
  deriving DecidableEq, Repr

/-- The GitLab repository metadata fields `create_pr` consults (GitLab
identifies the fork parent by numeric project id). -/
structure GitLabRepositoryInfo where
  default_branch : List Char
  forked_from_id : Option Nat
  deriving DecidableEq, Repr

/-- The Gitea repository metadata fields `create_pr` consults. -/
structure GiteaRepositoryInfo where
  default_branch : List Char
  deriving DecidableEq, Repr

namespace Bitbucket

/-- A Bitbucket workspace member's user record (src/vcs/bitbucket.rs,
`BitbucketUser`; the unused `display_name` is omitted). -/
structure BitbucketUser where
  uuid : List Char
  nickname : List Char
  deriving DecidableEq, Repr

/-- A branch revision of an outgoing Bitbucket create request
(src/vcs/bitbucket.rs, `BitbucketCreateRevision`; the repository is
identified by full name). -/
structure BitbucketCreateRevision where
  branch : List Char
  repository : Option (List Char)
  deriving DecidableEq, Repr

/-- The outgoing Bitbucket create-PR request (src/vcs/bitbucket.rs,
`BitbucketCreatePullRequest`); `reviewers` is the list of uuids. -/
structure BitbucketCreatePullRequest where
  title : List Char
  description : List Char
  source : BitbucketCreateRevision
  destination : Option BitbucketCreateRevision
  close_source_branch : Bool
  reviewers : List (List Char)
  deriving DecidableEq, Repr

/-- Embedding of `From<CreatePullRequest> for BitbucketCreatePullRequest`
(src/vcs/bitbucket.rs, lines 334-363): an absent target stays absent. -/
def BitbucketCreatePullRequest.ofCreate (pr : CreatePullRequest) :
    BitbucketCreatePullRequest where
  title := pr.title
  description := pr.description
  source := ⟨pr.source, none⟩
  destination := pr.target.map (fun name => ⟨name, none⟩)
  close_source_branch := pr.close_source_branch
  reviewers := pr.reviewers

/-- Embedding of `Bitbucket::get_workspace_users` (src/vcs/bitbucket.rs,
lines 475-489): keep exactly the paged workspace members whose nickname
appears among the requested usernames.  Usernames matching no member
simply contribute nothing. -/
def get_workspace_users (members : List BitbucketUser)
    (usernames : List (List Char)) : List BitbucketUser :=
  members.filter (fun u => usernames.contains u.nickname)

/-- What `Bitbucket::create_pr` submits: the repository path of the POST
url, the request body, and whether `get_repository` was fetched (only the
fork branch fetches it). -/
structure BitbucketCreateOutcome where
  url_repo : List Char
  request : BitbucketCreatePullRequest
  fetched_repository : Bool
  deriving DecidableEq, Repr

/-- Embedding of `Bitbucket::create_pr` (src/vcs/bitbucket.rs, lines
516-539): reviewers are replaced by the uuids of the matching workspace
members, the target branch is never resolved locally, and the function is
total — there is no error path for unresolved reviewers. -/
def create_pr (repo : List Char) (settings : VersionControlSettings)
    (members : List BitbucketUser) (repoData : RepositoryInfo)
    (pr : CreatePullRequest) : BitbucketCreateOutcome :=
  let reviewers := (get_workspace_users members pr.reviewers).map
    (fun u => u.uuid)
  let bbpr := BitbucketCreatePullRequest.ofCreate { pr with reviewers := reviewers }
  if settings.fork then
    match repoData.forked_from with
    | some forked =>
      { url_repo := forked,
        request := { bbpr with source := ⟨bbpr.source.branch, some repoData.full_name⟩ },
        fetched_repository := true }
    | none => { url_repo := repo, request := bbpr, fetched_repository := true }
  else { url_repo := repo, request := bbpr, fetched_repository := false }

end Bitbucket

namespace GitLab

/-- A GitLab wire user (src/vcs/gitlab.rs, `GitLabUser`; the unused
`name` is omitted). -/
structure GitLabUser where
  id : Nat
  username : List Char
  deriving DecidableEq, Repr

/-- `From<GitLabUser> for User` (src/vcs/gitlab.rs, lines 24-32): the
numeric id is rendered with `to_string`. -/
def GitLabUser.toUser (u : GitLabUser) : User :=
  ⟨(Nat.repr u.id).toList, u.username⟩

/-- Embedding of `GitLab::get_user_by_name` (src/vcs/gitlab.rs, lines
425-437): take the first result of the user search, or fail with an error
naming the username.  The remote search is abstracted as `search`. -/
def get_user_by_name (search : List Char → List GitLabUser)
    (username : List Char) : Except (List Char) User :=
  match search username with
  | user :: _ => .ok (GitLabUser.toUser user)
  | [] => .error username

/-- The reviewer-resolution loop of `GitLab::create_pr` (src/vcs/
gitlab.rs, lines 471-475): `collect::<Result<Vec<User>>>` stops at the
first failing lookup. -/
def collect_reviewers (search : List Char → List GitLabUser) :
    List (List Char) → Except (List Char) (List User)
  | [] => .ok []
  | n :: ns =>
    match get_user_by_name search n with
    | .error e => .error e
    | .ok u =>
      match collect_reviewers search ns with
      | .error e => .error e
      | .ok us => .ok (u :: us)

/-- The outgoing GitLab create-PR request (src/vcs/gitlab.rs,
`GitLabCreatePullRequest`). -/
structure GitLabCreatePullRequest where
  title : List Char
  description : List Char
  source_branch : List Char
  target_branch : List Char
  remove_source_branch : Bool
  reviewer_ids : List (List Char)
  target_project_id : Option Nat
  deriving DecidableEq, Repr

/-- Embedding of `From<CreatePullRequest> for GitLabCreatePullRequest`
(src/vcs/gitlab.rs, lines 297-318); the `master` fallback is never
supposed to trigger. -/
def GitLabCreatePullRequest.ofCreate (pr : CreatePullRequest) :
    GitLabCreatePullRequest where
  title := pr.title
  description := pr.description
  source_branch := pr.source
  target_branch := pr.target.getD "master".toList
  remove_source_branch := pr.close_source_branch
  reviewer_ids := pr.reviewers
  target_project_id := none

/-- What `GitLab::create_pr` submits, plus whether repository metadata
was fetched to resolve the target branch. -/
structure GitLabCreateOutcome where
  request : GitLabCreatePullRequest
  fetched_repository_for_target : Bool
  deriving DecidableEq, Repr

/-- Embedding of `GitLab::create_pr` (src/vcs/gitlab.rs, lines 469-501)
up to the POST: resolve every reviewer (failing before any remote
mutation if one is unresolved), resolve the target from the cached
default branch or fetched repository metadata, then build the request
(fork mode sets the parent project id). -/
def create_pr (search : List Char → List GitLabUser)
    (settings : VersionControlSettings) (repoData : GitLabRepositoryInfo)
    (pr : CreatePullRequest) : Except (List Char) GitLabCreateOutcome :=
  match collect_reviewers search pr.reviewers with
  | .error e => .error e
  | .ok users =>
    let pr := { pr with reviewers := users.map User.id }
    let resolved :=
      match pr.target.or settings.default_branch with
      | some t => (some t, false)
      | none => (some repoData.default_branch, true)
    let pr := { pr with target := resolved.1 }
    let glpr := GitLabCreatePullRequest.ofCreate pr
    let glpr :=
      if settings.fork then
        match repoData.forked_from_id with
        | some fid => { glpr with target_project_id := some fid }
        | none => glpr
      else glpr
    .ok { request := glpr, fetched_repository_for_target := resolved.2 }

end GitLab

namespace GitHub

/-- The outgoing GitHub create-PR request (src/vcs/github.rs,
`GitHubCreatePullRequest`). -/
structure GitHubCreatePullRequest where
  title : List Char
  body : List Char
  head : List Char
  base : List Char
  head_repo : Option (List Char)
  deriving DecidableEq, Repr

/-- Embedding of `From<CreatePullRequest> for GitHubCreatePullRequest`
(src/vcs/github.rs, lines 224-242); the `master` fallback is never
supposed to trigger. -/
def GitHubCreatePullRequest.ofCreate (pr : CreatePullRequest) :
    GitHubCreatePullRequest where
  title := pr.title
  body := pr.description
  head := pr.source
  base := pr.target.getD "master".toList
  head_repo := none

/-- What `GitHub::create_pr` submits: the repository path of the POST
url, the request body, whether repository metadata was fetched to resolve
the target, and the usernames posted afterwards to
`requested_reviewers` (GitHub passes reviewers through unresolved). -/
structure GitHubCreateOutcome where
  url_repo : List Char
  request : GitHubCreatePullRequest
  fetched_repository_for_target : Bool
  reviewers_posted : List (List Char)
  deriving DecidableEq, Repr

/-- Embedding of `GitHub::create_pr` (src/vcs/github.rs, lines 403-431)
up to the POSTs: resolve the target from the cached default branch or
fetched repository metadata, then build the request (fork mode redirects
the url to the parent and names the own repo as head). -/
def create_pr (repo : List Char) (settings : VersionControlSettings)
    (repoData : RepositoryInfo) (pr : CreatePullRequest) : GitHubCreateOutcome :=
  let reviewers := pr.reviewers
  let resolved :=
    match pr.target.or settings.default_branch with
    | some t => (some t, false)
    | none => (some repoData.default_branch, true)
  let pr := { pr with target := resolved.1 }
  let ghpr := GitHubCreatePullRequest.ofCreate pr
  if settings.fork then
    match repoData.forked_from with
    | some forked =>
      { url_repo := forked,
        request := { ghpr with head_repo := some repoData.full_name },
        fetched_repository_for_target := resolved.2,
        reviewers_posted := reviewers }
    | none =>
      { url_repo := repo, request := ghpr,
        fetched_repository_for_target := resolved.2,
        reviewers_posted := reviewers }
  else
    { url_repo := repo, request := ghpr,
      fetched_repository_for_target := resolved.2,
      reviewers_posted := reviewers }

end GitHub

namespace Gitea

/-- The outgoing Gitea create-PR request (src/vcs/gitea.rs,
`GiteaCreatePullRequest`). -/
structure GiteaCreatePullRequest where
  title : List Char
  body : List Char
  head : List Char
  base : List Char
  deriving DecidableEq, Repr

/-- Embedding of `From<CreatePullRequest> for GiteaCreatePullRequest`
(src/vcs/gitea.rs, lines 170-187). -/
def GiteaCreatePullRequest.ofCreate (pr : CreatePullRequest) :
    GiteaCreatePullRequest where
  title := pr.title
  body := pr.description
  head := pr.source
  base := pr.target.getD "master".toList

/-- What `Gitea::create_pr` submits, with the fetched-for-target flag and
the passed-through reviewer usernames. -/
structure GiteaCreateOutcome where
  request : GiteaCreatePullRequest
  fetched_repository_for_target : Bool
  reviewers_posted : List (List Char)
  deriving DecidableEq, Repr

/-- Embedding of `Gitea::create_pr` (src/vcs/gitea.rs, lines 375-397) up
to the POSTs: resolve the target from the cached default branch or
fetched repository metadata, then build the request. -/
def create_pr (settings : VersionControlSettings)
    (repoData : GiteaRepositoryInfo) (pr : CreatePullRequest) : GiteaCreateOutcome :=
  let reviewers := pr.reviewers
  let resolved :=
    match pr.target.or settings.default_branch with
    | some t => (some t, false)
    | none => (some repoData.default_branch, true)
  let pr := { pr with target := resolved.1 }
  { request := GiteaCreatePullRequest.ofCreate pr,
    fetched_repository_for_target := resolved.2,
    reviewers_posted := reviewers }

end Gitea

/-- If some requested reviewer has an empty GitLab user-search result,
the reviewer-collection loop fails, returning the name of the first such
reviewer. -/
theorem collect_reviewers_unresolved (search : List Char → List GitLab.GitLabUser)
    (names : List (List Char)) (h : ∃ n ∈ names, search n = []) :
    ∃ m ∈ names, search m = [] ∧
      GitLab.collect_reviewers search names = .error m := by
  induction names with
  | nil =>
    rcases h with ⟨n, hn, _⟩
    exact absurd hn (List.not_mem_nil n)
  | cons n ns ih =>
    rcases hs : search n with _ | ⟨u, us⟩
    · refine ⟨n, List.mem_cons_self n ns, hs, ?_⟩
      simp [GitLab.collect_reviewers, GitLab.get_user_by_name, hs]
    · rcases h with ⟨m, hm, hsm⟩
      rcases List.mem_cons.1 hm with rfl | hm2
      · rw [hs] at hsm
        cases hsm
      · rcases ih ⟨m, hm2, hsm⟩ with ⟨m2, hmem, hsm2, heq⟩
        refine ⟨m2, List.mem_cons_of_mem n hmem, hsm2, ?_⟩
        simp [GitLab.collect_reviewers, GitLab.get_user_by_name, hs, heq]

/-- C1 counterexample: Bitbucket's `create_pr`, asked for the reviewer
`ghost` in a workspace whose member list contains only `alice`, raises no
error: it submits the creation request anyway, with the unresolved
reviewer silently dropped (empty reviewer list). -/
theorem bitbucket_silently_drops_unresolved_reviewer :
    Bitbucket.create_pr "w/r".toList ⟨"u:t".toList, none, none, false⟩
        [⟨"uuid-1".toList, "alice".toList⟩]
        ⟨"w/r".toList, "main".toList, none⟩
        ⟨"T".toList, "D".toList, "feat".toList, some "main".toList, false,
          ["ghost".toList]⟩ =
      ⟨"w/r".toList,
        ⟨"T".toList, "D".toList, ⟨"feat".toList, none⟩,
          some ⟨"main".toList, none⟩, false, []⟩,
        false⟩ := by
  rfl

/-- C1 (amended): with an unresolved reviewer among the requested
usernames, GitLab's `create_pr` fails before submitting anything, with an
error naming an unresolved reviewer; Bitbucket's `create_pr`, by
contrast, never fails on reviewers: it submits the request with exactly
the uuids of the workspace members whose nickname was requested,
silently dropping the rest.  (GitHub and Gitea perform no resolution at
all; they pass usernames through.) -/
theorem unresolved_reviewer_handling
    (search : List Char → List GitLab.GitLabUser)
    (settings bbSettings : VersionControlSettings)
    (repoData : GitLabRepositoryInfo) (pr bbpr : CreatePullRequest)
    (repo : List Char) (members : List Bitbucket.BitbucketUser)
    (bbRepoData : RepositoryInfo)
    (h : ∃ n ∈ pr.reviewers, search n = []) :
    (∃ m ∈ pr.reviewers, search m = [] ∧
      GitLab.create_pr search settings repoData pr = .error m) ∧
    (Bitbucket.create_pr repo bbSettings members bbRepoData bbpr).request.reviewers =
      (members.filter (fun u => bbpr.reviewers.contains u.nickname)).map
        (fun u => u.uuid) := by
  constructor
  · rcases collect_reviewers_unresolved search pr.reviewers h with ⟨m, hm, hs, he⟩
    refine ⟨m, hm, hs, ?_⟩
    simp [GitLab.create_pr, he]
  · cases hf : bbSettings.fork with
    | false =>
      simp [Bitbucket.create_pr, hf, Bitbucket.get_workspace_users,
        Bitbucket.BitbucketCreatePullRequest.ofCreate]
    | true =>
      rcases hp : bbRepoData.forked_from with _ | f <;>
        simp [Bitbucket.create_pr, hf, hp, Bitbucket.get_workspace_users,
          Bitbucket.BitbucketCreatePullRequest.ofCreate]

/-- C1 witness: with an empty user search, creating a GitLab PR with the
reviewer `ghost` errors naming `ghost`, while the same Bitbucket request
in a one-member workspace is submitted with no reviewers. -/
theorem unresolved_reviewer_handling_witness :
    (∃ m ∈ (⟨"T".toList, "D".toList, "feat".toList, none, false,
        ["ghost".toList]⟩ : CreatePullRequest).reviewers,
      (fun _ : List Char => ([] : List GitLab.GitLabUser)) m = [] ∧
      GitLab.create_pr (fun _ => []) ⟨"glpat-x".toList, none, some "main".toList, false⟩
        ⟨"main".toList, none⟩
        ⟨"T".toList, "D".toList, "feat".toList, none, false, ["ghost".toList]⟩ =
        .error m) ∧
    (Bitbucket.create_pr "w/r".toList ⟨"u:t".toList, none, none, false⟩
        [⟨"uuid-2".toList, "bob".toList⟩] ⟨"w/r".toList, "main".toList, none⟩
        ⟨"T".toList, "D".toList, "feat".toList, none, false,
          ["ghost".toList]⟩).request.reviewers =
      ([⟨"uuid-2".toList, "bob".toList⟩].filter
        (fun u : Bitbucket.BitbucketUser =>
          [("ghost".toList)].contains u.nickname)).map (fun u => u.uuid) :=
  unresolved_reviewer_handling (fun _ => [])
    ⟨"glpat-x".toList, none, some "main".toList, false⟩
    ⟨"u:t".toList, none, none, false⟩ ⟨"main".toList, none⟩
    ⟨"T".toList, "D".toList, "feat".toList, none, false, ["ghost".toList]⟩
    ⟨"T".toList, "D".toList, "feat".toList, none, false, ["ghost".toList]⟩
    "w/r".toList [⟨"uuid-2".toList, "bob".toList⟩]
    ⟨"w/r".toList, "main".toList, none⟩
    ⟨"ghost".toList, by simp, rfl⟩

/-- C5 counterexample: Bitbucket's `create_pr` with an omitted target and
a cached default branch `main` in the settings submits a request whose
destination is absent (it neither uses the cached default nor fetches
repository metadata), contradicting the claim that every adapter resolves
the target before submitting. -/
theorem bitbucket_omits_unresolved_target :
    Bitbucket.create_pr "w/r".toList ⟨"u:t".toList, none, some "main".toList, false⟩
        [] ⟨"w/r".toList, "main".toList, none⟩
        ⟨"T".toList, "D".toList, "feat".toList, none, false, []⟩ =
      ⟨"w/r".toList,
        ⟨"T".toList, "D".toList, ⟨"feat".toList, none⟩, none, false, []⟩,
        false⟩ := by
  rfl

/-- C5 (amended): with an omitted target, GitHub, GitLab and Gitea
resolve the target branch before submitting — the cached default branch
from settings when present, else the default branch of the fetched
repository metadata (fetching exactly when the cache is absent) — while
Bitbucket submits the request with the destination omitted (delegating
the default to the server) and fetches no repository metadata outside
fork mode. -/
theorem default_branch_resolution
    (settings : VersionControlSettings) (repo : List Char)
    (ghRepo bbRepo : RepositoryInfo) (glRepo : GitLabRepositoryInfo)
    (gtRepo : GiteaRepositoryInfo)
    (search : List Char → List GitLab.GitLabUser)
    (members : List Bitbucket.BitbucketUser)
    (pr : CreatePullRequest) (users : List User)
    (h : pr.target = none)
    (hus : GitLab.collect_reviewers search pr.reviewers = .ok users) :
    ((GitHub.create_pr repo settings ghRepo pr).request.base =
        settings.default_branch.getD ghRepo.default_branch ∧
      (GitHub.create_pr repo settings ghRepo pr).fetched_repository_for_target =
        settings.default_branch.isNone) ∧
    ((Gitea.create_pr settings gtRepo pr).request.base =
        settings.default_branch.getD gtRepo.default_branch ∧
      (Gitea.create_pr settings gtRepo pr).fetched_repository_for_target =
        settings.default_branch.isNone) ∧
    ((GitLab.create_pr search settings glRepo pr).map
        (fun out => out.request.target_branch) =
        .ok (settings.default_branch.getD glRepo.default_branch) ∧
      (GitLab.create_pr search settings glRepo pr).map
        (fun out => out.fetched_repository_for_target) =
        .ok settings.default_branch.isNone) ∧
    ((Bitbucket.create_pr repo settings members bbRepo pr).request.destination =
        none ∧
      (settings.fork = false →
        (Bitbucket.create_pr repo settings members bbRepo pr).fetched_repository =
          false)) := by
  have hgh : (match pr.target.or settings.default_branch with
      | some t => (some t, false)
      | none => (some ghRepo.default_branch, true)) =
      (some (settings.default_branch.getD ghRepo.default_branch),
        settings.default_branch.isNone) := by
    rw [h]
    cases settings.default_branch <;> rfl
  have hgt : (match pr.target.or settings.default_branch with
      | some t => (some t, false)
      | none => (some gtRepo.default_branch, true)) =
      (some (settings.default_branch.getD gtRepo.default_branch),
        settings.default_branch.isNone) := by
    rw [h]
    cases settings.default_branch <;> rfl
  have hgl : (match pr.target.or settings.default_branch with
      | some t => (some t, false)
      | none => (some glRepo.default_branch, true)) =
      (some (settings.default_branch.getD glRepo.default_branch),
        settings.default_branch.isNone) := by
    rw [h]
    cases settings.default_branch <;> rfl
  refine ⟨?_, ?_, ?_, ?_⟩
  · cases hf : settings.fork with
    | false =>
      simp [GitHub.create_pr, hf, hgh, GitHub.GitHubCreatePullRequest.ofCreate]
    | true =>
      rcases hp : ghRepo.forked_from with _ | f <;>
        simp [GitHub.create_pr, hf, hp, hgh, GitHub.GitHubCreatePullRequest.ofCreate]
  · simp [Gitea.create_pr, hgt, Gitea.GiteaCreatePullRequest.ofCreate]
  · cases hf : settings.fork with
    | false =>
      simp [GitLab.create_pr, hus, hf, hgl, GitLab.GitLabCreatePullRequest.ofCreate,
        Except.map]
    | true =>
      rcases hp : glRepo.forked_from_id with _ | fid <;>
        simp [GitLab.create_pr, hus, hf, hp, hgl,
          GitLab.GitLabCreatePullRequest.ofCreate, Except.map]
  · constructor
    · cases hf : settings.fork with
      | false =>
        simp [Bitbucket.create_pr, hf, h,
          Bitbucket.BitbucketCreatePullRequest.ofCreate]
      | true =>
        rcases hp : bbRepo.forked_from with _ | f <;>
          simp [Bitbucket.create_pr, hf, hp, h,
            Bitbucket.BitbucketCreatePullRequest.ofCreate]
    · intro hf
      simp [Bitbucket.create_pr, hf]

/-- C5 witness: with no cached default branch and no reviewers, the three
resolving adapters put the fetched repository default `dev` in the
request (marking a metadata fetch), and Bitbucket omits the destination
with no fetch. -/
theorem default_branch_resolution_witness :
    ((GitHub.create_pr "w/r".toList ⟨"ghp_x".toList, none, none, false⟩
        ⟨"w/r".toList, "dev".toList, none⟩
        ⟨"T".toList, "D".toList, "feat".toList, none, false, []⟩).request.base =
        (none : Option (List Char)).getD "dev".toList ∧
      (GitHub.create_pr "w/r".toList ⟨"ghp_x".toList, none, none, false⟩
        ⟨"w/r".toList, "dev".toList, none⟩
        ⟨"T".toList, "D".toList, "feat".toList, none, false,
          []⟩).fetched_repository_for_target =
        (none : Option (List Char)).isNone) ∧
    ((Gitea.create_pr ⟨"ghp_x".toList, none, none, false⟩ ⟨"dev".toList⟩
        ⟨"T".toList, "D".toList, "feat".toList, none, false, []⟩).request.base =
        (none : Option (List Char)).getD "dev".toList ∧
      (Gitea.create_pr ⟨"ghp_x".toList, none, none, false⟩ ⟨"dev".toList⟩
        ⟨"T".toList, "D".toList, "feat".toList, none, false,
          []⟩).fetched_repository_for_target =
        (none : Option (List Char)).isNone) ∧
    ((GitLab.create_pr (fun _ => []) ⟨"ghp_x".toList, none, none, false⟩
        ⟨"dev".toList, none⟩
        ⟨"T".toList, "D".toList, "feat".toList, none, false, []⟩).map
        (fun out => out.request.target_branch) =
        .ok ((none : Option (List Char)).getD "dev".toList) ∧
      (GitLab.create_pr (fun _ => []) ⟨"ghp_x".toList, none, none, false⟩
        ⟨"dev".toList, none⟩
        ⟨"T".toList, "D".toList, "feat".toList, none, false, []⟩).map
        (fun out => out.fetched_repository_for_target) =
        .ok (none : Option (List Char)).isNone) ∧
    ((Bitbucket.create_pr "w/r".toList ⟨"ghp_x".toList, none, none, false⟩ []
        ⟨"w/r".toList, "dev".toList, none⟩
        ⟨"T".toList, "D".toList, "feat".toList, none, false,
          []⟩).request.destination = none ∧
      ((⟨"ghp_x".toList, none, none, false⟩ : VersionControlSettings).fork = false →
        (Bitbucket.create_pr "w/r".toList ⟨"ghp_x".toList, none, none, false⟩ []
          ⟨"w/r".toList, "dev".toList, none⟩
          ⟨"T".toList, "D".toList, "feat".toList, none, false,
            []⟩).fetched_repository = false)) :=
  default_branch_resolution ⟨"ghp_x".toList, none, none, false⟩ "w/r".toList
    ⟨"w/r".toList, "dev".toList, none⟩ ⟨"w/r".toList, "dev".toList, none⟩
    ⟨"dev".toList, none⟩ ⟨"dev".toList⟩ (fun _ => []) []
    ⟨"T".toList, "D".toList, "feat".toList, none, false, []⟩ [] rfl rfl

/-! ## Command orchestration (src/cmd/pr/merge.rs, close.rs, create.rs)

The orchestrators resolve the local branch and its remote, look up
authentication settings, select the provider, and then drive the remote
calls.  The remote's behaviour is abstracted as response functions
(`RemoteEnv`); each command model returns its result together with the
ordered trace of remote calls it performed, so ordering properties
(`merge_pr` only after a fresh lookup, no call after a rejection) are
facts about the trace.  Local-only steps that issue no remote calls —
printing, the checkout/pull and local branch deletion after a merge,
description derivation from stdin or commit summaries, and the
default-branch config caching — are folded into inputs or omitted. -/

/-- The canonical pull-request fields the orchestrators consume
(src/vcs/common.rs `PullRequest`, as constructed by the adapters with the
source commit sha; presentation-only fields are omitted). -/
structure PullRequest where
  id : Nat
  state : PullRequestState
  source : List Char
  source_sha : List Char
  target : List Char
  delete_source_branch : Bool
  deriving DecidableEq, Repr

/-- The errors the orchestrators can stop with. -/
inductive CmdError
  | detachedHead
  | invalidUrl
  | pushFirst
  | noRemotes
  | authNotFound
  | unknownVcsType
  | vcsTypeUndetected
  | localModifications
  | unpushedChanges
  | prNotFound
  | remoteCallFailed
  deriving DecidableEq, Repr

/-- The provider adapters `init_vcs` can select (src/vcs/common.rs). -/
inductive VcsKind
  | github
  | bitbucket
  | gitlab
  | gitea
  deriving DecidableEq, Repr

/-- Embedding of `init_vcs` (src/vcs/common.rs, lines 179-202): an
explicit type hint is authoritative; otherwise a fixed table of well-known
hostnames selects the adapter. -/
def init_vcs (hostname : List Char) (settings : VersionControlSettings) :
    Except CmdError VcsKind :=
  match settings.vcs_type with
  | some t =>
    if t = "github".toList then .ok .github
    else if t = "bitbucket".toList then .ok .bitbucket
    else if t = "gitlab".toList then .ok .gitlab
    else if t = "gitea".toList then .ok .gitea
    else .error .unknownVcsType
  | none =>
    if hostname = "github.com".toList then .ok .github
    else if hostname = "bitbucket.org".toList then .ok .bitbucket
    else if hostname = "gitlab.com".toList then .ok .gitlab
    else .error .vcsTypeUndetected

/-- The default `VersionControlSettings` (`Default` derive in
src/vcs/common.rs). -/
def defaultSettings : VersionControlSettings := ⟨[], none, none, false⟩

/-- The settings/auth resolution shared by the commands (e.g.
src/cmd/pr/merge.rs lines 29-41): an explicit `--auth` overrides the
token of the found (or default) settings; otherwise the found settings
are required. -/
def resolve_settings (found : Option VersionControlSettings)
    (authArg : Option (List Char)) : Except CmdError VersionControlSettings :=
  match authArg with
  | some auth => .ok { found.getD defaultSettings with auth := auth }
  | none =>
    match found with
    | some s => .ok s
    | none => .error .authNotFound

/-- The local repository state the commands consult: the current branch
(`None` when HEAD is detached), the tracking branch of each local branch
(`None` when a branch has no upstream), and the remote URL. -/
structure GitState where
  currentBranch : Option (List Char)
  upstreamOf : List Char → Option (List Char)
  remoteUrl : List Char

/-- Modelled from the spec: `LocalRepository::get_parsed_remote` is called
by every command orchestrator in src/cmd but its definition is not under
src/ (src/git/git.rs holds an older `get_remote_branch` revision with a
different signature).  Per §4.2 of the specification,
`resolve_remote(branch?) -> (hostname, repo_path, tracking_branch?)`
resolves the upstream of the given or current branch and parses the
remote URL; an absent upstream yields `tracking_branch = None` rather
than an error.  A panic of the URL parser is mapped to the invalid-URL
error here. -/
def get_parsed_remote (g : GitState) (branchArg : Option (List Char)) :
    Except CmdError (List Char × List Char × Option (List Char)) :=
  match branchArg.or g.currentBranch with
  | none => .error .detachedHead
  | some branch =>
    match parse_url g.remoteUrl with
    | some (.ok (host, path)) => .ok (host, path, g.upstreamOf branch)
    | _ => .error .invalidUrl

/-- The remote's behaviour, abstracted: what each call would return
(`none` is a failed request). -/
structure RemoteEnv where
  prByBranch : List Char → Option PullRequest
  mergeResponse : Nat → Bool → Option PullRequest
  closeResponse : Nat → Option PullRequest
  createResponse : CreatePullRequest → Option PullRequest

/-- One remote call, as recorded in a command's trace.  Lookups and
creations record the id of the pull request the response supplied. -/
inductive RemoteCall
  | getPrByBranch (branch : List Char) (response : Option Nat)
  | createPr (response : Option Nat)
  | mergePr (id : Nat) (delete : Bool)
  | closePr (id : Nat)
  | push (remote branch : List Char)
  deriving DecidableEq, Repr

/-- Whether a remote call is a `merge_pr` call. -/
def RemoteCall.isMergeCall : RemoteCall → Bool
  | .mergePr _ _ => true
  | _ => false

/-- The pull-request id a mutation call mutates, if the call is a
mutation (`merge_pr` or `close_pr`). -/
def isMutation : RemoteCall → Option Nat
  | .mergePr i _ => some i
  | .closePr i => some i
  | _ => none

/-- Whether a remote call's response freshly supplied the given
pull-request id (a successful by-branch lookup or a creation). -/
def suppliesId : RemoteCall → Nat → Prop
  | .getPrByBranch _ (some i), j => i = j
  | .createPr (some i), j => i = j
  | _, _ => False

/-- Every mutation in the trace is preceded by an earlier call whose
response supplied the mutated id (`seen` accumulates the earlier calls). -/
def freshMutations (seen : List RemoteCall) : List RemoteCall → Prop
  | [] => True
  | e :: rest =>
    (∀ i, isMutation e = some i → ∃ e2 ∈ seen, suppliesId e2 i) ∧
    freshMutations (seen ++ [e]) rest

/-- Embedding of the `merge` command (src/cmd/pr/merge.rs, lines 12-93)
up to and including the `merge_pr` call; the post-merge local checkout
and branch deletion issue no further remote calls and are omitted. -/
def merge (g : GitState) (env : RemoteEnv)
    (found : Option VersionControlSettings) (authArg : Option (List Char))
    (hasModifications : Bool) (branchSha : List Char)
    (branchArg : Option (List Char)) (delete force : Bool) :
    Except CmdError PullRequest × List RemoteCall :=
  match get_parsed_remote g branchArg with
  | .error e => (.error e, [])
  | .ok (hostname, _repo, remoteBranch) =>
    match remoteBranch with
    | none => (.error .pushFirst, [])
    | some rb =>
      match resolve_settings found authArg with
      | .error e => (.error e, [])
      | .ok settings =>
        if branchArg.isNone && hasModifications && !force then
          (.error .localModifications, [])
        else
          match init_vcs hostname settings with
          | .error e => (.error e, [])
          | .ok _ =>
            let tr := [RemoteCall.getPrByBranch rb
              ((env.prByBranch rb).map PullRequest.id)]
            match env.prByBranch rb with
            | none => (.error .prNotFound, tr)
            | some pr =>
              if !(pr.source_sha.isPrefixOf branchSha) && !force then
                (.error .unpushedChanges, tr)
              else
                match env.mergeResponse pr.id delete with
                | none => (.error .remoteCallFailed, tr ++ [.mergePr pr.id delete])
                | some merged => (.ok merged, tr ++ [.mergePr pr.id delete])

/-- Embedding of the `close` command (src/cmd/pr/close.rs, lines 11-48):
resolve the remote (the upstream is required), resolve settings, select
the provider, look the pull request up by branch, and close it by the
id the lookup supplied. -/
def close (g : GitState) (env : RemoteEnv)
    (found : Option VersionControlSettings) (authArg : Option (List Char))
    (branchArg : Option (List Char)) :
    Except CmdError PullRequest × List RemoteCall :=
  match get_parsed_remote g branchArg with
  | .error e => (.error e, [])
  | .ok (hostname, _repo, remoteBranch) =>
    match remoteBranch with
    | none => (.error .pushFirst, [])
    | some rb =>
      match resolve_settings found authArg with
      | .error e => (.error e, [])
      | .ok settings =>
        match init_vcs hostname settings with
        | .error e => (.error e, [])
        | .ok _ =>
          let tr := [RemoteCall.getPrByBranch rb
            ((env.prByBranch rb).map PullRequest.id)]
          match env.prByBranch rb with
          | none => (.error .prNotFound, tr)
          | some pr =>
            match env.closeResponse pr.id with
            | none => (.error .remoteCallFailed, tr ++ [.closePr pr.id])
            | some closed => (.ok closed, tr ++ [.closePr pr.id])

/-- The submission half of the `create` command (src/cmd/pr/create.rs,
lines 60-165): resolve settings, select the provider, create the pull
request, and with `--merge` immediately merge the freshly returned id.
The description inputs (stdin / derived commit list) are collapsed into
the `description` argument; the config caching of the target issues no
remote call and is omitted. -/
def create_submit (env : RemoteEnv)
    (found : Option VersionControlSettings) (authArg : Option (List Char))
    (hostname : List Char) (message description : List Char)
    (targetArg : Option (List Char)) (delete : Bool)
    (reviewers : List (List Char)) (mergeFlag : Bool)
    (rb : List Char) (tr0 : List RemoteCall) :
    Except CmdError PullRequest × List RemoteCall :=
  match resolve_settings found authArg with
  | .error e => (.error e, tr0)
  | .ok settings =>
    match init_vcs hostname settings with
    | .error e => (.error e, tr0)
    | .ok _ =>
      let req : CreatePullRequest :=
        ⟨message, description, rb, targetArg, delete, reviewers⟩
      let tr1 := tr0 ++ [RemoteCall.createPr
        ((env.createResponse req).map PullRequest.id)]
      match env.createResponse req with
      | none => (.error .remoteCallFailed, tr1)
      | some pr =>
        if mergeFlag then
          match env.mergeResponse pr.id false with
          | none => (.error .remoteCallFailed, tr1 ++ [.mergePr pr.id false])
          | some merged => (.ok merged, tr1 ++ [.mergePr pr.id false])
        else (.ok pr, tr1)

/-- Embedding of the `create` command (src/cmd/pr/create.rs, lines
14-186), split between the remote-branch resolution (with the push
fallback) here and the submission steps in `create_submit`. -/
def create (g : GitState) (env : RemoteEnv) (remotes : List (List Char))
    (found : Option VersionControlSettings) (authArg : Option (List Char))
    (message description : List Char) (targetArg : Option (List Char))
    (delete : Bool) (reviewers : List (List Char)) (mergeFlag : Bool)
    (branchArg : Option (List Char)) :
    Except CmdError PullRequest × List RemoteCall :=
  match get_parsed_remote g branchArg with
  | .error e => (.error e, [])
  | .ok (hostname, _repo, remoteBranch) =>
    match remoteBranch with
    | some rb =>
      create_submit env found authArg hostname message description targetArg
        delete reviewers mergeFlag rb []
    | none =>
      match remotes.head? with
      | none => (.error .noRemotes, [])
      | some remote =>
        match branchArg.or g.currentBranch with
        | none => (.error .detachedHead, [])
        | some branch =>
          create_submit env found authArg hostname message description targetArg
            delete reviewers mergeFlag branch [.push remote branch]

/-- A list is a prefix of itself, in the executable `isPrefixOf` sense. -/
theorem isPrefixOf_self (l : List Char) : l.isPrefixOf l = true := by
  induction l with
  | nil => rfl
  | cons c l ih => simp [List.isPrefixOf, ih]

/-- C4: in a merge invocation without `--force` whose remote lookup
returned `pr`, when the local branch sha does not extend the pull
request's recorded source sha the command stops with the
unpushed-changes error and its trace contains no `merge_pr` call; when
the shas are equal it proceeds, the trace ending with `merge_pr` on the
looked-up id. -/
theorem merge_rejects_unpushed_sha
    (g : GitState) (env : RemoteEnv) (found : Option VersionControlSettings)
    (authArg : Option (List Char)) (hasModifications : Bool)
    (branchSha : List Char) (branchArg : Option (List Char)) (delete : Bool)
    (host path rb : List Char) (settings : VersionControlSettings)
    (kind : VcsKind) (pr : PullRequest)
    (hr : get_parsed_remote g branchArg = .ok (host, path, some rb))
    (hs : resolve_settings found authArg = .ok settings)
    (hguard : (branchArg.isNone && hasModifications) = false)
    (hv : init_vcs host settings = .ok kind)
    (hpr : env.prByBranch rb = some pr) :
    (pr.source_sha.isPrefixOf branchSha = false →
      merge g env found authArg hasModifications branchSha branchArg delete false =
        (.error .unpushedChanges, [.getPrByBranch rb (some pr.id)])) ∧
    (branchSha = pr.source_sha →
      (merge g env found authArg hasModifications branchSha branchArg delete
          false).2 =
        [.getPrByBranch rb (some pr.id), .mergePr pr.id delete]) := by
  constructor
  · intro hsha
    simp [merge, hr, hs, hguard, hv, hpr, hsha]
  · intro hsha
    subst hsha
    rcases hm : env.mergeResponse pr.id delete with _ | m <;>
      simp [merge, hr, hs, hguard, hv, hpr, isPrefixOf_self, hm]

/-- C4 witness: with a pull request at sha `abc` and the local branch at
`def`, merging without `--force` is rejected with the unpushed-changes
error and no `merge_pr` call is traced. -/
theorem merge_rejects_unpushed_sha_witness :
    ((⟨1, .Open, "feat".toList, "abc".toList, "main".toList, false⟩ :
        PullRequest).source_sha.isPrefixOf "def".toList = false →
      merge ⟨some "feat".toList, fun _ => some "feat".toList,
          "git@host:a/b.git".toList⟩
        ⟨fun _ => some ⟨1, .Open, "feat".toList, "abc".toList, "main".toList,
            false⟩,
          fun _ _ => none, fun _ => none, fun _ => none⟩
        (some ⟨"tok".toList, some "github".toList, none, false⟩) none
        false "def".toList none false false =
        (.error .unpushedChanges, [.getPrByBranch "feat".toList (some 1)])) ∧
    ("def".toList =
        (⟨1, .Open, "feat".toList, "abc".toList, "main".toList, false⟩ :
          PullRequest).source_sha →
      (merge ⟨some "feat".toList, fun _ => some "feat".toList,
          "git@host:a/b.git".toList⟩
        ⟨fun _ => some ⟨1, .Open, "feat".toList, "abc".toList, "main".toList,
            false⟩,
          fun _ _ => none, fun _ => none, fun _ => none⟩
        (some ⟨"tok".toList, some "github".toList, none, false⟩) none
        false "def".toList none false false).2 =
        [.getPrByBranch "feat".toList (some 1), .mergePr 1 false]) :=
  merge_rejects_unpushed_sha
    ⟨some "feat".toList, fun _ => some "feat".toList, "git@host:a/b.git".toList⟩
    ⟨fun _ => some ⟨1, .Open, "feat".toList, "abc".toList, "main".toList, false⟩,
      fun _ _ => none, fun _ => none, fun _ => none⟩
    (some ⟨"tok".toList, some "github".toList, none, false⟩) none
    false "def".toList none false
    "host".toList "a/b".toList "feat".toList
    ⟨"tok".toList, some "github".toList, none, false⟩ .github
    ⟨1, .Open, "feat".toList, "abc".toList, "main".toList, false⟩
    (by decide) rfl rfl rfl rfl

/-- C9: in every merge, close, and create (including
create-with-immediate-merge) invocation, every `merge_pr`/`close_pr`
call in the trace is preceded by an earlier call of the same invocation
— a by-branch lookup or the creation itself — whose response supplied
the id being mutated; no mutation ever uses an id from outside the
trace. -/
theorem mutations_follow_fresh_lookup
    (g : GitState) (env : RemoteEnv) (remotes : List (List Char))
    (found : Option VersionControlSettings) (authArg : Option (List Char))
    (hasModifications : Bool) (branchSha : List Char)
    (branchArg : Option (List Char)) (delete force : Bool)
    (message description : List Char) (targetArg : Option (List Char))
    (reviewers : List (List Char)) (mergeFlag : Bool) :
    freshMutations []
      (merge g env found authArg hasModifications branchSha branchArg delete
        force).2 ∧
    freshMutations [] (close g env found authArg branchArg).2 ∧
    freshMutations []
      (create g env remotes found authArg message description targetArg delete
        reviewers mergeFlag branchArg).2 := by
  refine ⟨?_, ?_, ?_⟩
  · unfold merge
    repeat' split
    all_goals simp_all [freshMutations, isMutation, suppliesId]
  · unfold close
    repeat' split
    all_goals simp_all [freshMutations, isMutation, suppliesId]
  · unfold create create_submit
    repeat' split
    all_goals try simp_all [freshMutations, isMutation, suppliesId]
    all_goals repeat' split
    all_goals simp_all [freshMutations, isMutation, suppliesId]

/-- C6: resolving the remote of a branch with no upstream succeeds,
returning the parsed (hostname, repo path) with `tracking_branch = None`
— the resolve operation does not error merely because the upstream is
absent; the callers then decide: merge and close stop with their
push-first error before any remote call, while create pushes the branch
to the first configured remote and goes on. -/
theorem resolve_remote_absent_upstream
    (g : GitState) (env : RemoteEnv) (remotes : List (List Char))
    (found : Option VersionControlSettings) (authArg : Option (List Char))
    (hasModifications : Bool) (branchSha : List Char)
    (branchArg : Option (List Char)) (delete force : Bool)
    (message description : List Char) (targetArg : Option (List Char))
    (reviewers : List (List Char)) (mergeFlag : Bool)
    (b host path r : List Char)
    (hb : branchArg.or g.currentBranch = some b)
    (hurl : parse_url g.remoteUrl = some (.ok (host, path)))
    (hup : g.upstreamOf b = none) :
    get_parsed_remote g branchArg = .ok (host, path, none) ∧
    merge g env found authArg hasModifications branchSha branchArg delete force =
      (.error .pushFirst, []) ∧
    close g env found authArg branchArg = (.error .pushFirst, []) ∧
    (remotes.head? = some r →
      ((create g env remotes found authArg message description targetArg delete
          reviewers mergeFlag branchArg).2).head? = some (.push r b)) := by
  have hgp : get_parsed_remote g branchArg = .ok (host, path, none) := by
    simp [get_parsed_remote, hb, hurl, hup]
  refine ⟨hgp, by simp [merge, hgp], by simp [close, hgp], ?_⟩
  intro hr
  unfold create create_submit
  rw [hgp]
  simp only [hr, hb]
  repeat' split
  all_goals simp_all

/-- C6 witness: on a repository whose branch `feat` has no upstream,
resolving the remote of `https://host/a/b.git` yields
`(host, a/b, none)`; merge and close stop with the push-first error, and
create pushes `feat` to `origin` first. -/
theorem resolve_remote_absent_upstream_witness :
    get_parsed_remote
        ⟨some "feat".toList, fun _ => none, "https://host/a/b.git".toList⟩ none =
      .ok ("host".toList, "a/b".toList, none) ∧
    merge ⟨some "feat".toList, fun _ => none, "https://host/a/b.git".toList⟩
      ⟨fun _ => none, fun _ _ => none, fun _ => none, fun _ => none⟩
      none (some "tok".toList) false "abc".toList none false false =
      (.error .pushFirst, []) ∧
    close ⟨some "feat".toList, fun _ => none, "https://host/a/b.git".toList⟩
      ⟨fun _ => none, fun _ _ => none, fun _ => none, fun _ => none⟩
      none (some "tok".toList) none = (.error .pushFirst, []) ∧
    (["origin".toList].head? = some "origin".toList →
      ((create ⟨some "feat".toList, fun _ => none, "https://host/a/b.git".toList⟩
          ⟨fun _ => none, fun _ _ => none, fun _ => none, fun _ => none⟩
          ["origin".toList] none (some "tok".toList) "T".toList "D".toList
          none false [] false none).2).head? =
        some (.push "origin".toList "feat".toList)) :=
  resolve_remote_absent_upstream
    ⟨some "feat".toList, fun _ => none, "https://host/a/b.git".toList⟩
    ⟨fun _ => none, fun _ _ => none, fun _ => none, fun _ => none⟩
    ["origin".toList] none (some "tok".toList) false "abc".toList none false
    false "T".toList "D".toList none [] false
    "feat".toList "host".toList "a/b".toList "origin".toList
    rfl (by decide) rfl

end Gr
